import Mathlib

/-!
Verification development for the Investor Sentiment Tracker ETL pipeline
(`config.py`, `db.py`, `etl.py`).

The Python code is shallowly embedded: the persistent store (Supabase tables
`articles`, `mentions`, `daily_agg`) is a `Store` record of lists, external
service responses are explicit parameters (`Option` values, `none` modelling a
transport/parse failure), sentiment scores are rationals, calendar dates are
integers counting days, and every function additionally reports the number of
external text-understanding-service calls it performed.

Python's stable `list.sort(key=...)` is modelled by `List.insertionSort` with
the corresponding (reflexive, total, transitive) key relation; insertion sort
is stable, hence extensionally equal to Python's stable sort.
-/

namespace SentimentTracker

/-! ### Configuration constants (config.py) -/

/-- config.SENTIMENT_THRESHOLDS["positive"] = 0.25. -/
def SENTIMENT_THRESHOLD_POSITIVE : ℚ := mkRat 1 4

/-- config.SENTIMENT_THRESHOLDS["negative"] = -0.25. -/
def SENTIMENT_THRESHOLD_NEGATIVE : ℚ := mkRat (-1) 4

/-- config.TREND_THRESHOLDS["improving"] = 0.1. -/
def TREND_THRESHOLD_IMPROVING : ℚ := mkRat 1 10

/-- config.TREND_THRESHOLDS["declining"] = -0.1. -/
def TREND_THRESHOLD_DECLINING : ℚ := mkRat (-1) 10

/-- Default of config.MAX_ARTICLES_PER_REQUEST. -/
def MAX_ARTICLES_PER_REQUEST : Nat := 100

/-- etl.extract_news: `chunk_size = 7` days per chunk. -/
def chunk_size : Nat := 7

/-! ### Data model (db.py tables) -/

/-- A row of the `articles` table. `publishedDay` abstracts the ISO
`published_at` timestamp to a day number (comparisons on ISO date strings and
on day numbers agree). -/
structure Article where
  id : Nat
  source : String
  title : String
  url : String
  publishedDay : Int
  contentSnippet : String
deriving DecidableEq

/-- A row of the `mentions` table. -/
structure Mention where
  id : Nat
  articleId : Nat
  companyTicker : String
  sentimentScore : ℚ
  sentimentLabel : String
  keyTopics : List String
deriving DecidableEq

/-- A row of the `daily_agg` table. `sentimentTrend` is optional because the
Q&A read path accesses it with `.get("sentiment_trend", "stable")`. -/
structure DailyAgg where
  date : Int
  ticker : String
  avgSentiment : ℚ
  articleCount : Nat
  sentimentTrend : Option String
  topTopics : List String
  irBrief : String
deriving DecidableEq

/-- The persistent store (db.Database). `nextMentionId` models the
store-assigned autoincrement id for mention inserts. -/
structure Store where
  articles : List Article
  mentions : List Mention
  dailyAggs : List DailyAgg
  nextMentionId : Nat
deriving DecidableEq

def emptyStore : Store := ⟨[], [], [], 0⟩

/-! ### Store operations (db.py) -/

/-- db.get_mention_by_article: first `mentions` row with the given article id. -/
def get_mention_by_article (st : Store) (articleId : Nat) : Option Mention :=
  (st.mentions.filter (fun m => m.articleId == articleId)).head?

/-- db.insert_mention: appends a row and returns it with its assigned id. -/
def insert_mention (st : Store) (articleId : Nat) (ticker : String) (score : ℚ)
    (label : String) (topics : List String) : Mention × Store :=
  let m : Mention := ⟨st.nextMentionId, articleId, ticker, score, label, topics⟩
  (m, ⟨st.articles, st.mentions ++ [m], st.dailyAggs, st.nextMentionId + 1⟩)

/-- db.get_mentions_by_date: mentions of the ticker whose article was
published on the given day. -/
def get_mentions_by_date (st : Store) (ticker : String) (date : Int) : List Mention :=
  let articleIds := (st.articles.filter (fun a => a.publishedDay == date)).map (·.id)
  st.mentions.filter (fun m => m.companyTicker == ticker && articleIds.contains m.articleId)

/-- db.get_daily_agg: the aggregate row for (ticker, date), if any. -/
def get_daily_agg (aggs : List DailyAgg) (ticker : String) (date : Int) : Option DailyAgg :=
  (aggs.filter (fun a => a.ticker == ticker && a.date == date)).head?

/-- db.insert_daily_agg: upsert keyed by (ticker, date). -/
def upsert_daily_agg (aggs : List DailyAgg) (agg : DailyAgg) : List DailyAgg :=
  if aggs.any (fun a => a.ticker == agg.ticker && a.date == agg.date) then
    aggs.map (fun a => if a.ticker == agg.ticker && a.date == agg.date then agg else a)
  else aggs ++ [agg]

/-- db.get_daily_agg_range: aggregates of the ticker with date in
[startDate, endDate], ordered by date ascending. -/
def get_daily_agg_range (aggs : List DailyAgg) (ticker : String)
    (startDate endDate : Int) : List DailyAgg :=
  (aggs.filter (fun a =>
      a.ticker == ticker && decide (startDate ≤ a.date) && decide (a.date ≤ endDate))).insertionSort
    (fun a b => a.date ≤ b.date)

/-- db.get_articles_by_date_range: articles of the ticker in range (inner join
with `mentions`), ordered by published date descending, each with its joined
mention rows. -/
def get_articles_by_date_range (st : Store) (ticker : String)
    (startDate endDate : Int) : List (Article × List Mention) :=
  ((st.articles.filter (fun a =>
      decide (startDate ≤ a.publishedDay) && decide (a.publishedDay ≤ endDate) &&
      st.mentions.any (fun m => m.articleId == a.id && m.companyTicker == ticker))).insertionSort
    (fun a b => b.publishedDay ≤ a.publishedDay)).map
    (fun a => (a, st.mentions.filter (fun m => m.articleId == a.id && m.companyTicker == ticker)))

/-! ### Extraction (etl.extract_news, lines 40-58) -/

/-- etl.extract_news line 41:
`articles_per_chunk = max(10, config.MAX_ARTICLES_PER_REQUEST // (days_back // chunk_size + 1))`. -/
def articles_per_chunk (daysBack budget : Nat) : Nat :=
  max 10 (budget / (daysBack / chunk_size + 1))

/-- etl.extract_news chunk loop, in day offsets from `from_date` (0 =
`from_date`, `daysBack` = now): while `current_end > from_date` emit the window
`(max from_date (current_end - 7), current_end)` and continue from its start.
Windows are traversed most-recent-first. -/
def extractWindows (daysBack : Nat) : List (Nat × Nat) :=
  if _h : daysBack = 0 then []
  else (daysBack - chunk_size, daysBack) :: extractWindows (daysBack - chunk_size)
termination_by daysBack
decreasing_by
  have hc : chunk_size = 7 := rfl
  omega

/-! ### Scoring (etl.analyze_sentiment, lines 119-218) -/

/-- The three fields of a successfully parsed, schema-complete service
response (etl.py lines 171-175). A parse failure, a missing field, or a
transport error are all modelled as the absence of this value. -/
structure ClaudeSentiment where
  sentiment : ℚ
  label : String
  topics : List String
deriving DecidableEq

def VALID_LABELS : List String := ["negative", "neutral", "positive"]

/-- Python str.lower(): lowercase every character. -/
def pyLower (s : String) : String := ⟨s.data.map Char.toLower⟩

def isSpaceChar (c : Char) : Bool := c == ' ' || c == '\t' || c == '\n' || c == '\r'

/-- Python str.strip(): drop leading and trailing whitespace. -/
def pyStrip (s : String) : String :=
  ⟨((s.data.dropWhile isSpaceChar).reverse.dropWhile isSpaceChar).reverse⟩

/-- etl.analyze_sentiment lines 177-186: lowercase, trim, drop empties,
deduplicate case-insensitively keeping first-seen order. The `seen_topics` set
always holds exactly the elements of the accumulated list, so a single
accumulator models both. -/
def normalizeTopicsStep (acc : List String) (topic : String) : List String :=
  let normalized := pyStrip (pyLower topic)
  if normalized ≠ "" ∧ normalized ∉ acc then acc ++ [normalized] else acc

def normalizeTopics (topics : List String) : List String :=
  topics.foldl normalizeTopicsStep []

/-- etl.analyze_sentiment lines 188-198: lowercase the label; only when it is
not one of the three valid labels, derive it from the score by the thresholds. -/
def normalizeLabel (rawLabel : String) (score : ℚ) : String :=
  let label := pyLower rawLabel
  if label ∉ VALID_LABELS then
    if score ≥ SENTIMENT_THRESHOLD_POSITIVE then "positive"
    else if score ≤ SENTIMENT_THRESHOLD_NEGATIVE then "negative"
    else "neutral"
  else label

/-- etl.analyze_sentiment. `response` is the outcome of the (single) service
call made on a cache miss; the third component counts service calls. On any
analysis failure the function logs, persists nothing and returns `none`. -/
def analyze_sentiment (response : Option ClaudeSentiment) (st : Store)
    (articleId : Nat) (ticker : String) (_title _snippet : String) :
    Option Mention × Store × Nat :=
  match get_mention_by_article st articleId with
  | some existing => (some existing, st, 0)
  | none =>
    match response with
    | none => (none, st, 1)
    | some data =>
      let topics := normalizeTopics data.topics
      let label := normalizeLabel data.label data.sentiment
      let ms := insert_mention st articleId ticker data.sentiment label topics
      (some ms.1, ms.2, 1)

/-! ### Aggregation (etl.create_daily_summary, lines 223-291) -/

/-- etl.create_daily_summary lines 261-263: count topic frequencies in a dict
that preserves first-insertion order. -/
def bumpTopicCount (acc : List (String × Nat)) (t : String) : List (String × Nat) :=
  if acc.any (fun p => p.1 == t) then
    acc.map (fun p => if p.1 == t then (p.1, p.2 + 1) else p)
  else acc ++ [(t, 1)]

/-- etl.create_daily_summary lines 254-267: flatten topic lists, count, take
the top 5 by count (stable sort, descending). -/
def topTopicsOf (mentions : List Mention) : List String :=
  let allTopics := (mentions.map (·.keyTopics)).flatten
  let topicCounts := allTopics.foldl bumpTopicCount []
  ((topicCounts.insertionSort (fun a b => b.2 ≤ a.2)).take 5).map (·.1)

/-- etl.generate_ir_brief lines 300-305 (also the display policy). -/
def sentimentLabelOf (avg : ℚ) : String :=
  if avg ≥ SENTIMENT_THRESHOLD_POSITIVE then "positive"
  else if avg ≤ SENTIMENT_THRESHOLD_NEGATIVE then "negative"
  else "neutral"

/-- etl.generate_ir_brief: the service's text on success, otherwise the
deterministic fallback sentence (lines 343-345; the numeric 2-decimal
formatting of the Python f-string is abstracted). -/
def generate_ir_brief (_ticker : String) (mentions : List Mention)
    (avgSentiment : ℚ) (topTopics : List String) (svcBrief : Option String) : String :=
  match svcBrief with
  | some brief => brief
  | none =>
    "Analyzed " ++ toString mentions.length ++ " articles with " ++
      sentimentLabelOf avgSentiment ++ " sentiment. Top topics: " ++
      String.intercalate ", " (topTopics.take 3) ++ "."

/-- etl.create_daily_summary lines 240-252: trend against the aggregate stored
for (ticker, date - 3 days); "stable" when that aggregate is absent. -/
def trendForDay (aggs : List DailyAgg) (ticker : String) (date : Int)
    (avgSentiment : ℚ) : String :=
  match get_daily_agg aggs ticker (date - 3) with
  | none => "stable"
  | some prevAgg =>
    let diff := avgSentiment - prevAgg.avgSentiment
    if diff ≥ TREND_THRESHOLD_IMPROVING then "improving"
    else if diff ≤ TREND_THRESHOLD_DECLINING then "declining"
    else "stable"

/-- etl.create_daily_summary. `svcBrief` is the brief-generation service
response (`none` = failure, which falls back, never aborts aggregation). -/
def create_daily_summary (st : Store) (ticker : String) (date : Int)
    (svcBrief : Option String) : Option DailyAgg × Store :=
  let mentions := get_mentions_by_date st ticker date
  if mentions.isEmpty then (none, st)
  else
    let sentiments := mentions.map (·.sentimentScore)
    let avgSentiment := sentiments.sum / (sentiments.length : ℚ)
    let sentimentTrend := trendForDay st.dailyAggs ticker date avgSentiment
    let topTopics := topTopicsOf mentions
    let irBrief := generate_ir_brief ticker mentions avgSentiment topTopics svcBrief
    let agg : DailyAgg :=
      ⟨date, ticker, avgSentiment, mentions.length, some sentimentTrend, topTopics, irBrief⟩
    (some agg, ⟨st.articles, st.mentions, upsert_daily_agg st.dailyAggs agg, st.nextMentionId⟩)

/-! ### Question answering (etl.answer_sentiment_question, lines 405-527) -/

/-- Python `l[-n:]`: the last `min n l.length` elements. -/
def takeLast (n : Nat) (l : List α) : List α := l.drop (l.length - n)

/-- One entry of `articles_with_sentiment` (etl.py lines 462-468). -/
structure ArticleWithSentiment where
  title : String
  url : String
  date : Int
  sentiment : ℚ
  source : String
deriving DecidableEq

/-- etl.answer_sentiment_question lines 456-468: each in-range joined article
paired with its first mention's score. -/
def articlesWithSentimentOf (st : Store) (ticker : String)
    (startDate endDate : Int) : List ArticleWithSentiment :=
  (get_articles_by_date_range st ticker startDate endDate).filterMap
    (fun p => p.2.head?.map
      (fun m => ⟨p.1.title, p.1.url, p.1.publishedDay, m.sentimentScore, p.1.source⟩))

/-- etl.answer_sentiment_question lines 470-478: sort descending by score,
take the last 3 (most negative) and the first 2 (most positive), and re-sort
the 5 ascending by score. -/
def relatedArticlesOf (arts : List ArticleWithSentiment) : List ArticleWithSentiment :=
  let sortedDesc := arts.insertionSort (fun a b => b.sentiment ≤ a.sentiment)
  let topPositive := sortedDesc.take 3
  let topNegative := takeLast 3 sortedDesc
  let related := topNegative.take 3 ++ topPositive.take 2
  related.insertionSort (fun a b => a.sentiment ≤ b.sentiment)

/-- etl.answer_sentiment_question lines 434-445: the range trend. With more
than one daily mean it compares the mean of the last up-to-3 daily means with
the mean of the first up-to-3; otherwise it copies the single row's stored
trend, defaulting to "stable". -/
def qaTrend (sentiments : List ℚ) (firstDay : DailyAgg) : String :=
  if sentiments.length > 1 then
    let recent := takeLast 3 sentiments
    let older := sentiments.take 3
    let recentAvg := recent.sum / (recent.length : ℚ)
    let olderAvg := older.sum / ((min 3 older.length : Nat) : ℚ)
    if recentAvg > olderAvg + mkRat 1 10 then "improving"
    else if recentAvg < olderAvg - mkRat 1 10 then "declining"
    else "stable"
  else firstDay.sentimentTrend.getD "stable"

/-- The data interpolated into config.CHAT_PROMPT (the assembled context sent
to the service). `dailyBriefs` keeps the last-5 aggregate rows whose briefs
are formatted into the prompt; `keyPositive`/`keyNegative` are the two
"key articles" slices. -/
structure ChatContext where
  ticker : String
  startDate : Int
  endDate : Int
  avgSentiment : ℚ
  articleCount : Nat
  trend : String
  dailyBriefs : List DailyAgg
  keyPositive : List ArticleWithSentiment
  keyNegative : List ArticleWithSentiment
  question : String
deriving DecidableEq

/-- The returned dict of etl.answer_sentiment_question. -/
structure QAResult where
  answer : String
  relatedArticles : List ArticleWithSentiment
deriving DecidableEq

def NO_DATA_ANSWER : String :=
  "No sentiment data available for this date range. Please fetch articles first."

/-- etl.answer_sentiment_question. `svcAnswer` is the service response to the
assembled prompt (`none` = failure). Besides the returned dict, the embedding
exposes the assembled context (`none` when no prompt was built) and the number
of service calls. -/
def answer_sentiment_question (st : Store) (ticker question : String)
    (startDate endDate : Int) (svcAnswer : Option String) :
    QAResult × Option ChatContext × Nat :=
  match get_daily_agg_range st.dailyAggs ticker startDate endDate with
  | [] => (⟨NO_DATA_ANSWER, []⟩, none, 0)
  | d0 :: rest =>
    let dailyData := d0 :: rest
    let sentiments := dailyData.map (·.avgSentiment)
    let avgSentiment := sentiments.sum / (sentiments.length : ℚ)
    let articleCount := (dailyData.map (·.articleCount)).sum
    let trend := qaTrend sentiments d0
    let arts := articlesWithSentimentOf st ticker startDate endDate
    let sortedDesc := arts.insertionSort (fun a b => b.sentiment ≤ a.sentiment)
    let topPositive := sortedDesc.take 3
    let topNegative := takeLast 3 sortedDesc
    let relatedArticles := relatedArticlesOf arts
    let ctx : ChatContext := ⟨ticker, startDate, endDate, avgSentiment, articleCount,
      trend, takeLast 5 dailyData, topPositive, topNegative, question⟩
    match svcAnswer with
    | some ans => (⟨ans, relatedArticles.take 5⟩, some ctx, 1)
    | none => (⟨"Error generating answer", []⟩, some ctx, 1)

/-! ### Helper lemmas -/

/-- On a cache miss with a valid response, the returned Mention is exactly the
row built from the normalized response. -/
theorem analyze_sentiment_inserted (st : Store) (articleId : Nat)
    (ticker title snippet : String) (data : ClaudeSentiment) (m : Mention)
    (hmiss : get_mention_by_article st articleId = none)
    (hres : (analyze_sentiment (some data) st articleId ticker title snippet).1 = some m) :
    m = ⟨st.nextMentionId, articleId, ticker, data.sentiment,
      normalizeLabel data.label data.sentiment, normalizeTopics data.topics⟩ := by
  unfold analyze_sentiment at hres
  rw [hmiss] at hres
  unfold insert_mention at hres
  simpa using hres.symm

/-- Fetching the mention for an article right after inserting it returns the
inserted row, provided the article had no mention before. -/
theorem get_mention_after_insert (st : Store) (articleId : Nat) (ticker : String)
    (score : ℚ) (label : String) (topics : List String)
    (h : get_mention_by_article st articleId = none) :
    get_mention_by_article (insert_mention st articleId ticker score label topics).2 articleId =
      some (insert_mention st articleId ticker score label topics).1 := by
  unfold get_mention_by_article insert_mention at *
  rw [List.head?_eq_none_iff] at h
  simp [List.filter_append, h]

/-- The label-normalization policy of etl.analyze_sentiment lines 188-198. -/
theorem normalizeLabel_spec (raw : String) (score : ℚ) :
    (pyLower raw ∈ VALID_LABELS → normalizeLabel raw score = pyLower raw) ∧
    (pyLower raw ∉ VALID_LABELS →
      (SENTIMENT_THRESHOLD_POSITIVE ≤ score → normalizeLabel raw score = "positive") ∧
      (score ≤ SENTIMENT_THRESHOLD_NEGATIVE → normalizeLabel raw score = "negative") ∧
      (SENTIMENT_THRESHOLD_NEGATIVE < score → score < SENTIMENT_THRESHOLD_POSITIVE →
        normalizeLabel raw score = "neutral")) := by
  have hlt : SENTIMENT_THRESHOLD_NEGATIVE < SENTIMENT_THRESHOLD_POSITIVE := by decide
  by_cases h : pyLower raw ∈ VALID_LABELS
  · refine ⟨fun _ => ?_, fun h' => absurd h h'⟩
    unfold normalizeLabel
    rw [if_neg (by simpa using h)]
  · refine ⟨fun h' => absurd h' h, fun _ => ⟨?_, ?_, ?_⟩⟩
    · intro hs
      unfold normalizeLabel
      rw [if_pos h, if_pos (by exact hs)]
    · intro hs
      unfold normalizeLabel
      rw [if_pos h, if_neg (by simp only [ge_iff_le, not_le]; linarith), if_pos hs]
    · intro hs1 hs2
      unfold normalizeLabel
      rw [if_pos h, if_neg (by simp only [ge_iff_le, not_le]; exact hs2),
        if_neg (by simp only [not_le]; exact hs1)]

/-! ### C1 -/

/-- C1 counterexample: a response whose label "positive" is a valid member of
the label set but disagrees with its score -0.9 is persisted as-is: the stored
label is "positive" although the score is ≤ -0.25, so the claimed
label/score consistency fails (the fallback does not override a valid label). -/
theorem c1_label_score_counterexample :
    ∃ m : Mention,
      (analyze_sentiment (some ⟨mkRat (-9) 10, "positive", []⟩)
          emptyStore 1 "TSLA" "T" "S").1 = some m ∧
      m.sentimentScore ≤ SENTIMENT_THRESHOLD_NEGATIVE ∧
      m.sentimentLabel ≠ "negative" :=
  ⟨⟨0, 1, "TSLA", mkRat (-9) 10, "positive", []⟩, by decide, by decide, by decide⟩

/-- C1 amended: the persisted label is consistent with the stored score under
the thresholds only when the supplied label (lowercased) is not a valid member
of the label set; a valid supplied label is stored unchanged, even when it
disagrees with the numeric score. -/
theorem c1_label_policy (st : Store) (articleId : Nat) (ticker title snippet : String)
    (data : ClaudeSentiment) (m : Mention)
    (hmiss : get_mention_by_article st articleId = none)
    (hres : (analyze_sentiment (some data) st articleId ticker title snippet).1 = some m) :
    m.sentimentScore = data.sentiment ∧
    (pyLower data.label ∈ VALID_LABELS → m.sentimentLabel = pyLower data.label) ∧
    (pyLower data.label ∉ VALID_LABELS →
      (SENTIMENT_THRESHOLD_POSITIVE ≤ data.sentiment → m.sentimentLabel = "positive") ∧
      (data.sentiment ≤ SENTIMENT_THRESHOLD_NEGATIVE → m.sentimentLabel = "negative") ∧
      (SENTIMENT_THRESHOLD_NEGATIVE < data.sentiment →
        data.sentiment < SENTIMENT_THRESHOLD_POSITIVE → m.sentimentLabel = "neutral")) := by
  obtain rfl := analyze_sentiment_inserted st articleId ticker title snippet data m hmiss hres
  exact ⟨rfl, (normalizeLabel_spec data.label data.sentiment).1,
    (normalizeLabel_spec data.label data.sentiment).2⟩

/-- C1 amended witness: concrete run with the invalid label "excellent" and
score 0.5: the stored label is derived from the score as "positive". -/
theorem c1_label_policy_witness :
    ((⟨0, 1, "TSLA", mkRat 1 2, "positive", []⟩ : Mention).sentimentScore =
      (⟨mkRat 1 2, "excellent", []⟩ : ClaudeSentiment).sentiment) ∧
    (pyLower "excellent" ∈ VALID_LABELS →
      (⟨0, 1, "TSLA", mkRat 1 2, "positive", []⟩ : Mention).sentimentLabel =
        pyLower "excellent") ∧
    (pyLower "excellent" ∉ VALID_LABELS →
      (SENTIMENT_THRESHOLD_POSITIVE ≤ mkRat 1 2 →
        (⟨0, 1, "TSLA", mkRat 1 2, "positive", []⟩ : Mention).sentimentLabel = "positive") ∧
      (mkRat 1 2 ≤ SENTIMENT_THRESHOLD_NEGATIVE →
        (⟨0, 1, "TSLA", mkRat 1 2, "positive", []⟩ : Mention).sentimentLabel = "negative") ∧
      (SENTIMENT_THRESHOLD_NEGATIVE < mkRat 1 2 → mkRat 1 2 < SENTIMENT_THRESHOLD_POSITIVE →
        (⟨0, 1, "TSLA", mkRat 1 2, "positive", []⟩ : Mention).sentimentLabel = "neutral")) :=
  c1_label_policy emptyStore 1 "TSLA" "T" "S" ⟨mkRat 1 2, "excellent", []⟩
    ⟨0, 1, "TSLA", mkRat 1 2, "positive", []⟩ (by decide) (by decide)

/-! ### C2 -/

/-- C2: scoring is idempotent. When a Mention already exists for the article,
it is returned unchanged with no service call and no store mutation; and
whenever a first scoring call yields a Mention, a second call on the same
article yields the very same Mention with no further service call and no
store mutation, so the two calls perform at most one service call in total. -/
theorem c2_scoring_idempotent (st : Store) (articleId : Nat)
    (ticker title snippet : String) (resp1 resp2 : Option ClaudeSentiment) :
    (∀ m, get_mention_by_article st articleId = some m →
        analyze_sentiment resp1 st articleId ticker title snippet = (some m, st, 0)) ∧
    (∀ m st1 calls1,
        analyze_sentiment resp1 st articleId ticker title snippet = (some m, st1, calls1) →
        analyze_sentiment resp2 st1 articleId ticker title snippet = (some m, st1, 0) ∧
        calls1 + 0 ≤ 1) := by
  constructor
  · intro m hm
    unfold analyze_sentiment
    rw [hm]
  · intro m st1 calls1 h1
    unfold analyze_sentiment at h1
    cases hcache : get_mention_by_article st articleId with
    | some m0 =>
      rw [hcache] at h1
      simp only [Prod.mk.injEq, Option.some.injEq] at h1
      obtain ⟨rfl, rfl, rfl⟩ := h1
      constructor
      · unfold analyze_sentiment
        rw [hcache]
      · omega
    | none =>
      rw [hcache] at h1
      cases resp1 with
      | none => simp at h1
      | some data =>
        simp only [Prod.mk.injEq, Option.some.injEq] at h1
        obtain ⟨hm, hst, hc⟩ := h1
        constructor
        · unfold analyze_sentiment
          rw [← hst, get_mention_after_insert st articleId ticker data.sentiment
            (normalizeLabel data.label data.sentiment) (normalizeTopics data.topics) hcache, hm]
        · omega

def cachedMention : Mention := ⟨7, 1, "TSLA", mkRat 1 2, "positive", ["earnings"]⟩

def storeWithMention : Store := ⟨[], [cachedMention], [], 8⟩

def insertedMention : Mention := ⟨0, 1, "TSLA", mkRat 1 2, "positive", []⟩

def insertedStore : Store := ⟨[], [insertedMention], [], 1⟩

/-- C2 witness: a concrete cache hit returns the stored Mention with zero
calls; after a concrete successful first call, the second call returns the
same Mention with zero further calls. -/
theorem c2_scoring_idempotent_witness :
    (analyze_sentiment none storeWithMention 1 "TSLA" "T" "S" =
      (some cachedMention, storeWithMention, 0)) ∧
    (analyze_sentiment none insertedStore 1 "TSLA" "T" "S" =
      (some insertedMention, insertedStore, 0) ∧ 1 + 0 ≤ 1) :=
  ⟨(c2_scoring_idempotent storeWithMention 1 "TSLA" "T" "S" none none).1
      cachedMention (by decide),
   (c2_scoring_idempotent emptyStore 1 "TSLA" "T" "S"
      (some ⟨mkRat 1 2, "positive", []⟩) none).2 insertedMention insertedStore 1 (by decide)⟩

/-! ### C5 -/

/-- C5: when no DailyAggregate rows exist in the requested range, the Q&A
path returns the fixed no-data answer with an empty related-article list,
assembles no prompt and performs no service call. -/
theorem c5_empty_range_qa (st : Store) (ticker question : String)
    (startDate endDate : Int) (svcAnswer : Option String)
    (h : get_daily_agg_range st.dailyAggs ticker startDate endDate = []) :
    answer_sentiment_question st ticker question startDate endDate svcAnswer =
      (⟨NO_DATA_ANSWER, []⟩, none, 0) := by
  unfold answer_sentiment_question
  rw [h]

/-- C5 witness: the empty store has no aggregates in range. -/
theorem c5_empty_range_qa_witness :
    get_daily_agg_range emptyStore.dailyAggs "TSLA" 0 10 = [] ∧
    answer_sentiment_question emptyStore "TSLA" "How is sentiment trending?" 0 10 none =
      (⟨NO_DATA_ANSWER, []⟩, none, 0) :=
  ⟨rfl, c5_empty_range_qa emptyStore "TSLA" "How is sentiment trending?" 0 10 none rfl⟩

/-! ### C6 -/

/-- Characterization of the topic-normalization fold: starting from a
duplicate-free accumulator it appends a duplicate-free selection of the
normalized topics, drops exactly the empty ones, and keeps every non-empty
normalized topic. -/
theorem normalizeTopics_foldl_spec (l : List String) : ∀ acc : List String, acc.Nodup →
    ∃ r, l.foldl normalizeTopicsStep acc = acc ++ r ∧
      List.Sublist r (l.map (fun t => pyStrip (pyLower t))) ∧
      (acc ++ r).Nodup ∧
      (∀ t ∈ r, t ≠ "") ∧
      (∀ t ∈ l, pyStrip (pyLower t) ≠ "" → pyStrip (pyLower t) ∈ acc ++ r) := by
  induction l with
  | nil =>
    intro acc hacc
    exact ⟨[], by simp, List.nil_sublist _, by simpa, by simp, by simp⟩
  | cons hd tl ih =>
    intro acc hacc
    by_cases hcond : pyStrip (pyLower hd) ≠ "" ∧ pyStrip (pyLower hd) ∉ acc
    · have hstep : normalizeTopicsStep acc hd = acc ++ [pyStrip (pyLower hd)] := by
        unfold normalizeTopicsStep
        rw [if_pos hcond]
      have hacc' : (acc ++ [pyStrip (pyLower hd)]).Nodup := by
        simp [List.nodup_append, hacc, hcond.2]
      obtain ⟨r, hr1, hr2, hr3, hr4, hr5⟩ := ih (acc ++ [pyStrip (pyLower hd)]) hacc'
      refine ⟨pyStrip (pyLower hd) :: r, ?_, ?_, ?_, ?_, ?_⟩
      · rw [List.foldl_cons, hstep, hr1, List.append_assoc]
        rfl
      · exact List.Sublist.cons₂ _ hr2
      · rw [show acc ++ pyStrip (pyLower hd) :: r = (acc ++ [pyStrip (pyLower hd)]) ++ r by
          simp]
        exact hr3
      · intro t ht
        rcases List.mem_cons.mp ht with rfl | ht
        · exact hcond.1
        · exact hr4 t ht
      · intro t ht hne
        rcases List.mem_cons.mp ht with rfl | ht
        · simp
        · have := hr5 t ht hne
          simpa [List.append_assoc] using this
    · have hstep : normalizeTopicsStep acc hd = acc := by
        unfold normalizeTopicsStep
        rw [if_neg hcond]
      obtain ⟨r, hr1, hr2, hr3, hr4, hr5⟩ := ih acc hacc
      refine ⟨r, ?_, hr2.trans (List.sublist_cons_self _ _), hr3, hr4, ?_⟩
      · rw [List.foldl_cons, hstep, hr1]
      · intro t ht hne
        rcases List.mem_cons.mp ht with rfl | ht
        · rcases not_and_or.mp hcond with h1 | h1
          · exact absurd hne (by simpa using h1)
          · have : pyStrip (pyLower t) ∈ acc := not_not.mp h1
            exact List.mem_append_left _ this
        · exact hr5 t ht hne

/-- C6 counterexample: a response with four distinct topics is persisted with
all four entries — the stored topic list is not capped at 3. -/
theorem c6_topic_cap_counterexample :
    ∃ m : Mention,
      (analyze_sentiment (some ⟨0, "neutral", ["alpha", "beta", "gamma", "delta"]⟩)
          emptyStore 1 "TSLA" "T" "S").1 = some m ∧
      m.keyTopics = ["alpha", "beta", "gamma", "delta"] ∧
      ¬ m.keyTopics.length ≤ 3 :=
  ⟨⟨0, 1, "TSLA", 0, "neutral", ["alpha", "beta", "gamma", "delta"]⟩,
    by decide, by decide, by decide⟩

/-- C6 amended: the persisted topic list is the response's topics lowercased
and trimmed, with empty results dropped and duplicates removed (keeping the
first occurrence, in order): a duplicate-free sublist of the normalized topics
containing every non-empty normalized topic. No cap at 3 entries is applied. -/
theorem c6_topic_normalization (st : Store) (articleId : Nat)
    (ticker title snippet : String) (data : ClaudeSentiment) (m : Mention)
    (hmiss : get_mention_by_article st articleId = none)
    (hres : (analyze_sentiment (some data) st articleId ticker title snippet).1 = some m) :
    m.keyTopics = normalizeTopics data.topics ∧
    m.keyTopics.Nodup ∧
    List.Sublist m.keyTopics (data.topics.map (fun t => pyStrip (pyLower t))) ∧
    (∀ t ∈ m.keyTopics, t ≠ "") ∧
    (∀ t ∈ data.topics, pyStrip (pyLower t) ≠ "" → pyStrip (pyLower t) ∈ m.keyTopics) := by
  obtain rfl := analyze_sentiment_inserted st articleId ticker title snippet data m hmiss hres
  obtain ⟨r, hr1, hr2, hr3, hr4, hr5⟩ := normalizeTopics_foldl_spec data.topics [] List.nodup_nil
  have hnt : normalizeTopics data.topics = r := by
    unfold normalizeTopics
    rw [hr1]
    simp
  refine ⟨rfl, ?_, ?_, ?_, ?_⟩
  · show (normalizeTopics data.topics).Nodup
    rw [hnt]
    simpa using hr3
  · show List.Sublist (normalizeTopics data.topics) _
    rw [hnt]
    exact hr2
  · show ∀ t ∈ normalizeTopics data.topics, t ≠ ""
    rw [hnt]
    exact hr4
  · show ∀ t ∈ data.topics, _ → _ ∈ normalizeTopics data.topics
    rw [hnt]
    intro t ht hne
    simpa using hr5 t ht hne

/-- C6 amended witness: a concrete run normalizing
["Regulatory Concerns", "regulatory concerns", " Earnings "]. -/
theorem c6_topic_normalization_witness :
    (⟨0, 1, "TSLA", 0, "neutral", ["regulatory concerns", "earnings"]⟩ : Mention).keyTopics =
      normalizeTopics ["Regulatory Concerns", "regulatory concerns", " Earnings "] ∧
    (⟨0, 1, "TSLA", 0, "neutral", ["regulatory concerns", "earnings"]⟩ : Mention).keyTopics.Nodup ∧
    List.Sublist
      (⟨0, 1, "TSLA", 0, "neutral", ["regulatory concerns", "earnings"]⟩ : Mention).keyTopics
      (["Regulatory Concerns", "regulatory concerns", " Earnings "].map
        (fun t => pyStrip (pyLower t))) ∧
    (∀ t ∈ (⟨0, 1, "TSLA", 0, "neutral", ["regulatory concerns", "earnings"]⟩ : Mention).keyTopics,
      t ≠ "") ∧
    (∀ t ∈ ["Regulatory Concerns", "regulatory concerns", " Earnings "],
      pyStrip (pyLower t) ≠ "" →
        pyStrip (pyLower t) ∈
          (⟨0, 1, "TSLA", 0, "neutral", ["regulatory concerns", "earnings"]⟩ : Mention).keyTopics) :=
  c6_topic_normalization emptyStore 1 "TSLA" "T" "S"
    ⟨0, "neutral", ["Regulatory Concerns", "regulatory concerns", " Earnings "]⟩
    ⟨0, 1, "TSLA", 0, "neutral", ["regulatory concerns", "earnings"]⟩ (by decide) (by decide)

/-! ### C9 -/

/-- C9: with exactly one DailyAggregate row in range, the trend placed in the
assembled context is not computed from daily means: it is copied from that
row's stored sentiment_trend field, defaulting to "stable" when absent. -/
theorem c9_single_day_trend (st : Store) (ticker question : String)
    (startDate endDate : Int) (ans : String) (d0 : DailyAgg)
    (h : get_daily_agg_range st.dailyAggs ticker startDate endDate = [d0]) :
    ∃ ctx : ChatContext,
      (answer_sentiment_question st ticker question startDate endDate (some ans)).2.1 =
        some ctx ∧
      ctx.trend = d0.sentimentTrend.getD "stable" ∧
      (∀ t, d0.sentimentTrend = some t → ctx.trend = t) ∧
      (d0.sentimentTrend = none → ctx.trend = "stable") := by
  unfold answer_sentiment_question
  rw [h]
  refine ⟨_, rfl, ?_, ?_, ?_⟩
  · show qaTrend ([d0].map (·.avgSentiment)) d0 = _
    unfold qaTrend
    simp
  · intro t ht
    show qaTrend ([d0].map (·.avgSentiment)) d0 = t
    unfold qaTrend
    simp [ht]
  · intro ht
    show qaTrend ([d0].map (·.avgSentiment)) d0 = "stable"
    unfold qaTrend
    simp [ht]

def singleAgg : DailyAgg := ⟨5, "TSLA", mkRat 1 2, 3, some "improving", ["earnings"], "brief"⟩

def storeSingleAgg : Store := ⟨[], [], [singleAgg], 0⟩

/-- C9 witness: a store holding exactly one aggregate row in range, whose
stored trend "improving" is copied into the context. -/
theorem c9_single_day_trend_witness :
    ∃ ctx : ChatContext,
      (answer_sentiment_question storeSingleAgg "TSLA" "Q" 0 10 (some "A")).2.1 = some ctx ∧
      ctx.trend = singleAgg.sentimentTrend.getD "stable" ∧
      (∀ t, singleAgg.sentimentTrend = some t → ctx.trend = t) ∧
      (singleAgg.sentimentTrend = none → ctx.trend = "stable") :=
  c9_single_day_trend storeSingleAgg "TSLA" "Q" 0 10 "A" singleAgg (by decide)

/-! ### C3 -/

/-- The trend-classification policy of etl.create_daily_summary lines 240-252. -/
theorem trendForDay_spec (aggs : List DailyAgg) (ticker : String) (date : Int) (avg : ℚ) :
    (get_daily_agg aggs ticker (date - 3) = none → trendForDay aggs ticker date avg = "stable") ∧
    (∀ prevAgg, get_daily_agg aggs ticker (date - 3) = some prevAgg →
      (avg - prevAgg.avgSentiment ≥ TREND_THRESHOLD_IMPROVING →
        trendForDay aggs ticker date avg = "improving") ∧
      (avg - prevAgg.avgSentiment ≤ TREND_THRESHOLD_DECLINING →
        trendForDay aggs ticker date avg = "declining") ∧
      (TREND_THRESHOLD_DECLINING < avg - prevAgg.avgSentiment →
        avg - prevAgg.avgSentiment < TREND_THRESHOLD_IMPROVING →
        trendForDay aggs ticker date avg = "stable")) := by
  have hthr : TREND_THRESHOLD_DECLINING < TREND_THRESHOLD_IMPROVING := by decide
  constructor
  · intro hnone
    unfold trendForDay
    rw [hnone]
  · intro prevAgg hprev
    refine ⟨?_, ?_, ?_⟩
    · intro hge
      unfold trendForDay
      rw [hprev]
      show (if avg - prevAgg.avgSentiment ≥ TREND_THRESHOLD_IMPROVING then "improving"
        else if avg - prevAgg.avgSentiment ≤ TREND_THRESHOLD_DECLINING then "declining"
        else "stable") = "improving"
      rw [if_pos hge]
    · intro hle
      unfold trendForDay
      rw [hprev]
      show (if avg - prevAgg.avgSentiment ≥ TREND_THRESHOLD_IMPROVING then "improving"
        else if avg - prevAgg.avgSentiment ≤ TREND_THRESHOLD_DECLINING then "declining"
        else "stable") = "declining"
      rw [if_neg (by simp only [ge_iff_le, not_le]; linarith), if_pos hle]
    · intro h1 h2
      unfold trendForDay
      rw [hprev]
      show (if avg - prevAgg.avgSentiment ≥ TREND_THRESHOLD_IMPROVING then "improving"
        else if avg - prevAgg.avgSentiment ≤ TREND_THRESHOLD_DECLINING then "declining"
        else "stable") = "stable"
      rw [if_neg (by simp only [ge_iff_le, not_le]; exact h2),
        if_neg (by simp only [not_le]; exact h1)]

/-- C3: for a (ticker, date) with at least one Mention, aggregation classifies
the trend against the aggregate stored for (ticker, date - 3 days): "stable"
when that aggregate is absent, otherwise "improving" when today's mean minus
the prior mean is at least 0.1, "declining" when it is at most -0.1, and
"stable" otherwise; today's mean is the arithmetic mean of the day's scores. -/
theorem c3_aggregate_trend (st : Store) (ticker : String) (date : Int)
    (svcBrief : Option String)
    (hne : get_mentions_by_date st ticker date ≠ []) :
    ∃ agg : DailyAgg,
      (create_daily_summary st ticker date svcBrief).1 = some agg ∧
      agg.avgSentiment = ((get_mentions_by_date st ticker date).map (·.sentimentScore)).sum /
        (((get_mentions_by_date st ticker date).map (·.sentimentScore)).length : ℚ) ∧
      (get_daily_agg st.dailyAggs ticker (date - 3) = none →
        agg.sentimentTrend = some "stable") ∧
      (∀ prevAgg, get_daily_agg st.dailyAggs ticker (date - 3) = some prevAgg →
        (agg.avgSentiment - prevAgg.avgSentiment ≥ TREND_THRESHOLD_IMPROVING →
          agg.sentimentTrend = some "improving") ∧
        (agg.avgSentiment - prevAgg.avgSentiment ≤ TREND_THRESHOLD_DECLINING →
          agg.sentimentTrend = some "declining") ∧
        (TREND_THRESHOLD_DECLINING < agg.avgSentiment - prevAgg.avgSentiment →
          agg.avgSentiment - prevAgg.avgSentiment < TREND_THRESHOLD_IMPROVING →
          agg.sentimentTrend = some "stable")) := by
  unfold create_daily_summary
  rw [if_neg (by simpa using hne)]
  refine ⟨_, rfl, rfl, ?_, ?_⟩
  · intro hnone
    exact congrArg some ((trendForDay_spec st.dailyAggs ticker date _).1 hnone)
  · intro prevAgg hprev
    exact ⟨fun hge => congrArg some
        (((trendForDay_spec st.dailyAggs ticker date _).2 prevAgg hprev).1 hge),
      fun hle => congrArg some
        (((trendForDay_spec st.dailyAggs ticker date _).2 prevAgg hprev).2.1 hle),
      fun h1 h2 => congrArg some
        (((trendForDay_spec st.dailyAggs ticker date _).2 prevAgg hprev).2.2 h1 h2)⟩

def aggArticle : Article := ⟨1, "src", "headline", "urlA", 10, "snippet"⟩

def aggMention : Mention := ⟨0, 1, "TSLA", mkRat 1 2, "positive", ["earnings"]⟩

def priorAgg : DailyAgg := ⟨7, "TSLA", mkRat 1 5, 2, some "stable", [], "prior brief"⟩

def aggStore : Store := ⟨[aggArticle], [aggMention], [priorAgg], 1⟩

/-- C3 witness: one mention on day 10 and a prior aggregate on day 7. -/
theorem c3_aggregate_trend_witness :
    get_mentions_by_date aggStore "TSLA" 10 ≠ [] ∧
    (∃ agg : DailyAgg,
      (create_daily_summary aggStore "TSLA" 10 none).1 = some agg ∧
      agg.avgSentiment = ((get_mentions_by_date aggStore "TSLA" 10).map (·.sentimentScore)).sum /
        (((get_mentions_by_date aggStore "TSLA" 10).map (·.sentimentScore)).length : ℚ) ∧
      (get_daily_agg aggStore.dailyAggs "TSLA" (10 - 3) = none →
        agg.sentimentTrend = some "stable") ∧
      (∀ prevAgg, get_daily_agg aggStore.dailyAggs "TSLA" (10 - 3) = some prevAgg →
        (agg.avgSentiment - prevAgg.avgSentiment ≥ TREND_THRESHOLD_IMPROVING →
          agg.sentimentTrend = some "improving") ∧
        (agg.avgSentiment - prevAgg.avgSentiment ≤ TREND_THRESHOLD_DECLINING →
          agg.sentimentTrend = some "declining") ∧
        (TREND_THRESHOLD_DECLINING < agg.avgSentiment - prevAgg.avgSentiment →
          agg.avgSentiment - prevAgg.avgSentiment < TREND_THRESHOLD_IMPROVING →
          agg.sentimentTrend = some "stable"))) :=
  ⟨by decide, c3_aggregate_trend aggStore "TSLA" 10 none (by decide)⟩

/-! ### C8 -/

/-- The range-trend policy of etl.answer_sentiment_question lines 435-443,
for more than one daily mean: the mean of the last up-to-3 daily means is
compared against the mean of the first up-to-3 (the code's
`min(3, len(sentiments[:3]))` denominator equals the slice length, so both
sides are genuine arithmetic means), with strict 0.1-threshold comparisons. -/
theorem qaTrend_spec (sentiments : List ℚ) (d0 : DailyAgg)
    (hlen : 1 < sentiments.length) :
    ((sentiments.take 3).sum / ((sentiments.take 3).length : ℚ) + mkRat 1 10 <
        (takeLast 3 sentiments).sum / ((takeLast 3 sentiments).length : ℚ) →
      qaTrend sentiments d0 = "improving") ∧
    ((takeLast 3 sentiments).sum / ((takeLast 3 sentiments).length : ℚ) <
        (sentiments.take 3).sum / ((sentiments.take 3).length : ℚ) - mkRat 1 10 →
      qaTrend sentiments d0 = "declining") ∧
    ((sentiments.take 3).sum / ((sentiments.take 3).length : ℚ) - mkRat 1 10 ≤
        (takeLast 3 sentiments).sum / ((takeLast 3 sentiments).length : ℚ) →
      (takeLast 3 sentiments).sum / ((takeLast 3 sentiments).length : ℚ) ≤
        (sentiments.take 3).sum / ((sentiments.take 3).length : ℚ) + mkRat 1 10 →
      qaTrend sentiments d0 = "stable") := by
  have hpos : (0:ℚ) < mkRat 1 10 := by decide
  have hmin : ((min 3 (sentiments.take 3).length : Nat) : ℚ) =
      ((sentiments.take 3).length : ℚ) := by
    congr 1
    rw [List.length_take]
    omega
  unfold qaTrend
  rw [if_pos hlen]
  simp only [hmin]
  split_ifs with h1 h2
  · exact ⟨fun _ => rfl, fun hc => absurd hc (by linarith),
      fun _ hc => absurd h1 (not_lt.mpr hc)⟩
  · exact ⟨fun hc => absurd hc h1, fun _ => rfl,
      fun hge _ => absurd h2 (not_lt.mpr hge)⟩
  · exact ⟨fun hc => absurd hc h1, fun hc => absurd hc h2, fun _ _ => rfl⟩

/-- C8: with at least 2 DailyAggregate rows in range, the trend placed in the
assembled context compares the arithmetic mean of the last up-to-3 daily means
with that of the first up-to-3: "improving" when the recent mean exceeds the
earlier one by more than the 0.1 threshold, "declining" when below by more
than 0.1, and "stable" otherwise — a computation distinct from aggregation's
fixed 3-day-offset trend. -/
theorem c8_qa_range_trend (st : Store) (ticker question : String)
    (startDate endDate : Int) (ans : String) (d0 : DailyAgg) (rest : List DailyAgg)
    (h : get_daily_agg_range st.dailyAggs ticker startDate endDate = d0 :: rest)
    (hrest : rest ≠ []) :
    ∃ ctx : ChatContext,
      (answer_sentiment_question st ticker question startDate endDate (some ans)).2.1 =
        some ctx ∧
      ((((d0 :: rest).map (·.avgSentiment)).take 3).sum /
            ((((d0 :: rest).map (·.avgSentiment)).take 3).length : ℚ) + mkRat 1 10 <
          (takeLast 3 ((d0 :: rest).map (·.avgSentiment))).sum /
            ((takeLast 3 ((d0 :: rest).map (·.avgSentiment))).length : ℚ) →
        ctx.trend = "improving") ∧
      ((takeLast 3 ((d0 :: rest).map (·.avgSentiment))).sum /
            ((takeLast 3 ((d0 :: rest).map (·.avgSentiment))).length : ℚ) <
          (((d0 :: rest).map (·.avgSentiment)).take 3).sum /
            ((((d0 :: rest).map (·.avgSentiment)).take 3).length : ℚ) - mkRat 1 10 →
        ctx.trend = "declining") ∧
      ((((d0 :: rest).map (·.avgSentiment)).take 3).sum /
            ((((d0 :: rest).map (·.avgSentiment)).take 3).length : ℚ) - mkRat 1 10 ≤
          (takeLast 3 ((d0 :: rest).map (·.avgSentiment))).sum /
            ((takeLast 3 ((d0 :: rest).map (·.avgSentiment))).length : ℚ) →
        (takeLast 3 ((d0 :: rest).map (·.avgSentiment))).sum /
            ((takeLast 3 ((d0 :: rest).map (·.avgSentiment))).length : ℚ) ≤
          (((d0 :: rest).map (·.avgSentiment)).take 3).sum /
            ((((d0 :: rest).map (·.avgSentiment)).take 3).length : ℚ) + mkRat 1 10 →
        ctx.trend = "stable") := by
  have hlen : 1 < ((d0 :: rest).map (·.avgSentiment)).length := by
    simp only [List.length_map, List.length_cons]
    have := List.length_pos.mpr hrest
    omega
  unfold answer_sentiment_question
  rw [h]
  exact ⟨_, rfl, (qaTrend_spec _ d0 hlen).1, (qaTrend_spec _ d0 hlen).2.1,
    (qaTrend_spec _ d0 hlen).2.2⟩

def rangeAggEarly : DailyAgg := ⟨3, "TSLA", mkRat 1 10, 2, some "stable", [], "briefE"⟩

def rangeAggLate : DailyAgg := ⟨5, "TSLA", mkRat 3 10, 4, some "stable", [], "briefL"⟩

def rangeStore : Store := ⟨[], [], [rangeAggLate, rangeAggEarly], 0⟩

/-- C8 witness: two aggregate rows in range (sorted ascending by date). -/
theorem c8_qa_range_trend_witness :
    ∃ ctx : ChatContext,
      (answer_sentiment_question rangeStore "TSLA" "Q" 0 10 (some "A")).2.1 = some ctx ∧
      ((((rangeAggEarly :: [rangeAggLate]).map (·.avgSentiment)).take 3).sum /
            ((((rangeAggEarly :: [rangeAggLate]).map (·.avgSentiment)).take 3).length : ℚ) +
            mkRat 1 10 <
          (takeLast 3 ((rangeAggEarly :: [rangeAggLate]).map (·.avgSentiment))).sum /
            ((takeLast 3 ((rangeAggEarly :: [rangeAggLate]).map (·.avgSentiment))).length : ℚ) →
        ctx.trend = "improving") ∧
      ((takeLast 3 ((rangeAggEarly :: [rangeAggLate]).map (·.avgSentiment))).sum /
            ((takeLast 3 ((rangeAggEarly :: [rangeAggLate]).map (·.avgSentiment))).length : ℚ) <
          (((rangeAggEarly :: [rangeAggLate]).map (·.avgSentiment)).take 3).sum /
            ((((rangeAggEarly :: [rangeAggLate]).map (·.avgSentiment)).take 3).length : ℚ) -
            mkRat 1 10 →
        ctx.trend = "declining") ∧
      ((((rangeAggEarly :: [rangeAggLate]).map (·.avgSentiment)).take 3).sum /
            ((((rangeAggEarly :: [rangeAggLate]).map (·.avgSentiment)).take 3).length : ℚ) -
            mkRat 1 10 ≤
          (takeLast 3 ((rangeAggEarly :: [rangeAggLate]).map (·.avgSentiment))).sum /
            ((takeLast 3 ((rangeAggEarly :: [rangeAggLate]).map (·.avgSentiment))).length : ℚ) →
        (takeLast 3 ((rangeAggEarly :: [rangeAggLate]).map (·.avgSentiment))).sum /
            ((takeLast 3 ((rangeAggEarly :: [rangeAggLate]).map (·.avgSentiment))).length : ℚ) ≤
          (((rangeAggEarly :: [rangeAggLate]).map (·.avgSentiment)).take 3).sum /
            ((((rangeAggEarly :: [rangeAggLate]).map (·.avgSentiment)).take 3).length : ℚ) +
            mkRat 1 10 →
        ctx.trend = "stable") :=
  c8_qa_range_trend rangeStore "TSLA" "Q" 0 10 "A" rangeAggEarly [rangeAggLate]
    (by decide) (by decide)

/-! ### C7 -/

theorem extractWindows_zero : extractWindows 0 = [] := by
  simp [extractWindows]

theorem extractWindows_pos (d : Nat) (hd : d ≠ 0) :
    extractWindows d = (d - chunk_size, d) :: extractWindows (d - chunk_size) := by
  rw [extractWindows]
  rw [dif_neg hd]

/-- The loop issues ceil(daysBack / 7) sub-window requests. -/
theorem extractWindows_length : ∀ d : Nat,
    (extractWindows d).length = (d + chunk_size - 1) / chunk_size := by
  intro d
  induction d using Nat.strong_induction_on with
  | _ d ih =>
    by_cases hd : d = 0
    · subst hd
      rw [extractWindows_zero]
      rfl
    · rw [extractWindows_pos d hd, List.length_cons,
        ih (d - chunk_size) (by have hc : chunk_size = 7 := rfl; omega)]
      rw [show chunk_size = 7 from rfl]
      omega

/-- The first (most recent) window ends at now (= offset daysBack). -/
theorem extractWindows_head (d : Nat) (hd : d ≠ 0) :
    (extractWindows d).head? = some (d - chunk_size, d) := by
  rw [extractWindows_pos d hd]
  rfl

/-- The last (oldest) window starts at from_date (= offset 0). -/
theorem extractWindows_getLast_fst : ∀ d : Nat, d ≠ 0 →
    ((extractWindows d).getLast?).map Prod.fst = some 0 := by
  intro d
  induction d using Nat.strong_induction_on with
  | _ d ih =>
    intro hd
    rw [extractWindows_pos d hd]
    by_cases h7 : d - chunk_size = 0
    · rw [h7, extractWindows_zero]
      simp [h7]
    · rw [extractWindows_pos _ h7, List.getLast?_cons_cons, ← extractWindows_pos _ h7]
      exact ih (d - chunk_size) (by have hc : chunk_size = 7 := rfl; omega) h7

/-- Consecutive windows are contiguous: each next (older) window ends where
the previous one starts. -/
theorem extractWindows_chain : ∀ d : Nat,
    List.Chain' (fun p q => q.2 = p.1) (extractWindows d) := by
  intro d
  induction d using Nat.strong_induction_on with
  | _ d ih =>
    by_cases hd : d = 0
    · rw [hd, extractWindows_zero]
      exact List.chain'_nil
    · rw [extractWindows_pos d hd]
      by_cases h7 : d - chunk_size = 0
      · rw [h7, extractWindows_zero]
        simp
      · rw [extractWindows_pos _ h7, List.chain'_cons]
        refine ⟨rfl, ?_⟩
        rw [← extractWindows_pos _ h7]
        exact ih (d - chunk_size) (by have hc : chunk_size = 7 := rfl; omega)

/-- Every window is non-empty and at most 7 days wide. -/
theorem extractWindows_bounds : ∀ d : Nat,
    ∀ p ∈ extractWindows d, p.1 < p.2 ∧ p.2 - p.1 ≤ chunk_size := by
  intro d
  induction d using Nat.strong_induction_on with
  | _ d ih =>
    by_cases hd : d = 0
    · rw [hd, extractWindows_zero]
      simp
    · rw [extractWindows_pos d hd]
      intro p hp
      rcases List.mem_cons.mp hp with rfl | hp
      · have hc : chunk_size = 7 := rfl
        exact ⟨by omega, by omega⟩
      · exact ih (d - chunk_size) (by have hc : chunk_size = 7 := rfl; omega) p hp

/-- C7 counterexample: at days_back = 7 with the default budget of 100 the
code caps each request at max(10, 100 // (7 // 7 + 1)) = 50, while the claimed
formula — the budget divided by the number of sub-windows, floored at 10 —
gives max(10, 100 // 1) = 100, because a 7-day lookback produces exactly one
sub-window. -/
theorem c7_page_size_counterexample :
    articles_per_chunk 7 MAX_ARTICLES_PER_REQUEST = 50 ∧
    (extractWindows 7).length = 1 ∧
    max 10 (MAX_ARTICLES_PER_REQUEST / (extractWindows 7).length) = 100 ∧
    articles_per_chunk 7 MAX_ARTICLES_PER_REQUEST ≠
      max 10 (MAX_ARTICLES_PER_REQUEST / (extractWindows 7).length) := by
  have h7 : extractWindows 7 = [(0, 7)] := by
    rw [extractWindows_pos 7 (by omega)]
    show (0, 7) :: extractWindows 0 = [(0, 7)]
    rw [extractWindows_zero]
  refine ⟨by decide, by rw [h7]; rfl, by rw [h7]; decide, by rw [h7]; decide⟩

/-- C7 amended: extraction partitions [now - days_back, now] into
ceil(days_back / 7) contiguous sub-windows of width at most 7, traversed
most-recent-first (the first ends at now, the last starts at now - days_back,
and each next window ends where the previous starts); the per-window request
cap is budget // (days_back // 7 + 1) with a minimum floor of 10 — a divisor
that equals the number of sub-windows exactly when days_back is not a multiple
of 7, and exceeds it by one otherwise. -/
theorem c7_extraction_windows (daysBack budget : Nat) (hd : daysBack ≠ 0) :
    articles_per_chunk daysBack budget = max 10 (budget / (daysBack / chunk_size + 1)) ∧
    (extractWindows daysBack).length = (daysBack + chunk_size - 1) / chunk_size ∧
    (extractWindows daysBack).head? = some (daysBack - chunk_size, daysBack) ∧
    ((extractWindows daysBack).getLast?).map Prod.fst = some 0 ∧
    List.Chain' (fun p q => q.2 = p.1) (extractWindows daysBack) ∧
    (∀ p ∈ extractWindows daysBack, p.1 < p.2 ∧ p.2 - p.1 ≤ chunk_size) ∧
    (daysBack % chunk_size ≠ 0 →
      daysBack / chunk_size + 1 = (extractWindows daysBack).length) ∧
    (daysBack % chunk_size = 0 →
      daysBack / chunk_size + 1 = (extractWindows daysBack).length + 1) := by
  refine ⟨rfl, extractWindows_length daysBack, extractWindows_head daysBack hd,
    extractWindows_getLast_fst daysBack hd, extractWindows_chain daysBack,
    extractWindows_bounds daysBack, ?_, ?_⟩
  · intro hmod
    rw [extractWindows_length daysBack]
    rw [show chunk_size = 7 from rfl] at hmod ⊢
    omega
  · intro hmod
    rw [extractWindows_length daysBack]
    rw [show chunk_size = 7 from rfl] at hmod ⊢
    omega

/-- C7 amended witness: days_back = 10, budget = 100. -/
theorem c7_extraction_windows_witness :
    articles_per_chunk 10 100 = max 10 (100 / (10 / chunk_size + 1)) ∧
    (extractWindows 10).length = (10 + chunk_size - 1) / chunk_size ∧
    (extractWindows 10).head? = some (10 - chunk_size, 10) ∧
    ((extractWindows 10).getLast?).map Prod.fst = some 0 ∧
    List.Chain' (fun p q => q.2 = p.1) (extractWindows 10) ∧
    (∀ p ∈ extractWindows 10, p.1 < p.2 ∧ p.2 - p.1 ≤ chunk_size) ∧
    (10 % chunk_size ≠ 0 → 10 / chunk_size + 1 = (extractWindows 10).length) ∧
    (10 % chunk_size = 0 → 10 / chunk_size + 1 = (extractWindows 10).length + 1) :=
  c7_extraction_windows 10 100 (by omega)

/-! ### C4 and C10: the related-article selection -/

instance : IsTotal ArticleWithSentiment (fun a b => b.sentiment ≤ a.sentiment) :=
  ⟨fun a b => le_total b.sentiment a.sentiment⟩

instance : IsTrans ArticleWithSentiment (fun a b => b.sentiment ≤ a.sentiment) :=
  ⟨fun _ _ _ h1 h2 => le_trans h2 h1⟩

instance : IsTotal ArticleWithSentiment (fun a b => a.sentiment ≤ b.sentiment) :=
  ⟨fun a b => le_total a.sentiment b.sentiment⟩

instance : IsTrans ArticleWithSentiment (fun a b => a.sentiment ≤ b.sentiment) :=
  ⟨fun _ _ _ h1 h2 => le_trans h1 h2⟩

instance : IsTotal ℚ (fun x y : ℚ => y ≤ x) := ⟨fun a b => le_total b a⟩

instance : IsTrans ℚ (fun x y : ℚ => y ≤ x) := ⟨fun _ _ _ h1 h2 => le_trans h2 h1⟩

instance : IsAntisymm ℚ (fun x y : ℚ => y ≤ x) := ⟨fun _ _ h1 h2 => le_antisymm h2 h1⟩

instance : IsTotal ℚ (fun x y : ℚ => x ≤ y) := ⟨fun a b => le_total a b⟩

instance : IsTrans ℚ (fun x y : ℚ => x ≤ y) := ⟨fun _ _ _ h1 h2 => le_trans h1 h2⟩

instance : IsAntisymm ℚ (fun x y : ℚ => x ≤ y) := ⟨fun _ _ h1 h2 => le_antisymm h1 h2⟩

/-- Sorting scores descending is reversing the ascending sort. -/
theorem descScores_eq (scores : List ℚ) :
    scores.insertionSort (fun x y => y ≤ x) =
      (scores.insertionSort (fun x y => x ≤ y)).reverse := by
  have hp : (scores.insertionSort (fun x y => y ≤ x)).Perm
      ((scores.insertionSort (fun x y => x ≤ y)).reverse) :=
    (List.perm_insertionSort _ scores).trans
      ((List.perm_insertionSort _ scores).symm.trans (List.reverse_perm _).symm)
  have hs1 : List.Sorted (fun x y : ℚ => y ≤ x) (scores.insertionSort (fun x y => y ≤ x)) :=
    List.sorted_insertionSort _ scores
  have hs2 : List.Sorted (fun x y : ℚ => y ≤ x)
      ((scores.insertionSort (fun x y => x ≤ y)).reverse) :=
    List.pairwise_reverse.mpr (List.sorted_insertionSort _ scores)
  exact List.eq_of_perm_of_sorted hp hs1 hs2

/-- With at least 6 scored articles, the related-article selection returns
exactly 5 entries whose score multiset consists of the 3 smallest and the 2
largest input scores, in ascending order, and every entry is an input
article. -/
theorem relatedArticlesOf_spec (arts : List ArticleWithSentiment) (h6 : 6 ≤ arts.length) :
    (relatedArticlesOf arts).length = 5 ∧
    (relatedArticlesOf arts).map (·.sentiment) =
      ((arts.map (·.sentiment)).insertionSort (fun x y => x ≤ y)).take 3 ++
      ((arts.map (·.sentiment)).insertionSort (fun x y => x ≤ y)).drop
        (((arts.map (·.sentiment)).insertionSort (fun x y => x ≤ y)).length - 2) ∧
    List.Sorted (fun a b : ArticleWithSentiment => a.sentiment ≤ b.sentiment)
      (relatedArticlesOf arts) ∧
    (∀ a ∈ relatedArticlesOf arts, a ∈ arts) := by
  have hrel : relatedArticlesOf arts =
      ((takeLast 3 (arts.insertionSort (fun a b => b.sentiment ≤ a.sentiment))).take 3 ++
        ((arts.insertionSort (fun a b => b.sentiment ≤ a.sentiment)).take 3).take 2).insertionSort
        (fun a b => a.sentiment ≤ b.sentiment) := rfl
  have hdlen : (arts.insertionSort (fun a b => b.sentiment ≤ a.sentiment)).length =
      arts.length := List.length_insertionSort _ _
  have hdperm : (arts.insertionSort (fun a b => b.sentiment ≤ a.sentiment)).Perm arts :=
    List.perm_insertionSort _ _
  have hmapd : (arts.insertionSort (fun a b => b.sentiment ≤ a.sentiment)).map (·.sentiment) =
      ((arts.map (·.sentiment)).insertionSort (fun x y : ℚ => x ≤ y)).reverse := by
    rw [List.map_insertionSort (fun a b : ArticleWithSentiment => b.sentiment ≤ a.sentiment)
      (fun x y : ℚ => y ≤ x) (·.sentiment) arts (fun _ _ _ _ => Iff.rfl)]
    exact descScores_eq _
  have hSlen : ((arts.map (·.sentiment)).insertionSort (fun x y : ℚ => x ≤ y)).length =
      arts.length := by
    rw [List.length_insertionSort, List.length_map]
  have htk1 : (takeLast 3 (arts.insertionSort (fun a b => b.sentiment ≤ a.sentiment))).take 3 =
      takeLast 3 (arts.insertionSort (fun a b => b.sentiment ≤ a.sentiment)) := by
    apply List.take_of_length_le
    unfold takeLast
    rw [List.length_drop]
    omega
  have htk2 : ((arts.insertionSort (fun a b => b.sentiment ≤ a.sentiment)).take 3).take 2 =
      (arts.insertionSort (fun a b => b.sentiment ≤ a.sentiment)).take 2 := by
    rw [List.take_take]
    norm_num
  have hlen1 : (takeLast 3 (arts.insertionSort (fun a b => b.sentiment ≤ a.sentiment))).length
      = 3 := by
    unfold takeLast
    rw [List.length_drop]
    omega
  have hlen2 : ((arts.insertionSort (fun a b => b.sentiment ≤ a.sentiment)).take 2).length
      = 2 := by
    rw [List.length_take]
    omega
  have hmapcat :
      ((takeLast 3 (arts.insertionSort (fun a b => b.sentiment ≤ a.sentiment)) ++
        (arts.insertionSort (fun a b => b.sentiment ≤ a.sentiment)).take 2).map (·.sentiment)) =
      (((arts.map (·.sentiment)).insertionSort (fun x y : ℚ => x ≤ y)).take 3).reverse ++
      (((arts.map (·.sentiment)).insertionSort (fun x y : ℚ => x ≤ y)).drop
        (((arts.map (·.sentiment)).insertionSort (fun x y : ℚ => x ≤ y)).length - 2)).reverse := by
    rw [List.map_append]
    congr 1
    · unfold takeLast
      rw [List.map_drop, hmapd, hdlen, List.drop_reverse, hSlen,
        show arts.length - (arts.length - 3) = 3 by omega]
    · rw [List.map_take, hmapd, List.take_reverse]
  have hSsorted : List.Sorted (fun x y : ℚ => x ≤ y)
      ((arts.map (·.sentiment)).insertionSort (fun x y : ℚ => x ≤ y)) :=
    List.sorted_insertionSort _ _
  have hTsorted : List.Sorted (fun x y : ℚ => x ≤ y)
      (((arts.map (·.sentiment)).insertionSort (fun x y : ℚ => x ≤ y)).take 3 ++
       ((arts.map (·.sentiment)).insertionSort (fun x y : ℚ => x ≤ y)).drop
         (((arts.map (·.sentiment)).insertionSort (fun x y : ℚ => x ≤ y)).length - 2)) := by
    refine List.pairwise_append.mpr
      ⟨hSsorted.sublist (List.take_sublist _ _), hSsorted.sublist (List.drop_sublist _ _), ?_⟩
    intro x hx y hy
    have hy3 : y ∈ ((arts.map (·.sentiment)).insertionSort (fun x y : ℚ => x ≤ y)).drop 3 := by
      have hdd : ((arts.map (·.sentiment)).insertionSort (fun x y : ℚ => x ≤ y)).drop
          (((arts.map (·.sentiment)).insertionSort (fun x y : ℚ => x ≤ y)).length - 2) =
          (((arts.map (·.sentiment)).insertionSort (fun x y : ℚ => x ≤ y)).drop 3).drop
          (((arts.map (·.sentiment)).insertionSort (fun x y : ℚ => x ≤ y)).length - 5) := by
        rw [List.drop_drop]
        congr 1
        omega
      rw [hdd] at hy
      exact List.mem_of_mem_drop hy
    have hcross : ∀ u ∈ ((arts.map (·.sentiment)).insertionSort (fun x y : ℚ => x ≤ y)).take 3,
        ∀ v ∈ ((arts.map (·.sentiment)).insertionSort (fun x y : ℚ => x ≤ y)).drop 3,
        u ≤ v := by
      have h := hSsorted
      rw [← List.take_append_drop 3
        ((arts.map (·.sentiment)).insertionSort (fun x y : ℚ => x ≤ y))] at h
      exact fun u hu v hv => (List.pairwise_append.mp h).2.2 u hu v hv
    exact hcross x hx y hy3
  have hrelmap : (relatedArticlesOf arts).map (·.sentiment) =
      ((takeLast 3 (arts.insertionSort (fun a b => b.sentiment ≤ a.sentiment)) ++
        (arts.insertionSort (fun a b => b.sentiment ≤ a.sentiment)).take 2).map
        (·.sentiment)).insertionSort (fun x y : ℚ => x ≤ y) := by
    rw [hrel, htk1, htk2]
    exact List.map_insertionSort (fun a b : ArticleWithSentiment => a.sentiment ≤ b.sentiment)
      (fun x y : ℚ => x ≤ y) (·.sentiment) _ (fun _ _ _ _ => Iff.rfl)
  have hfinal : (relatedArticlesOf arts).map (·.sentiment) =
      ((arts.map (·.sentiment)).insertionSort (fun x y : ℚ => x ≤ y)).take 3 ++
      ((arts.map (·.sentiment)).insertionSort (fun x y : ℚ => x ≤ y)).drop
        (((arts.map (·.sentiment)).insertionSort (fun x y : ℚ => x ≤ y)).length - 2) := by
    have hp : ((relatedArticlesOf arts).map (·.sentiment)).Perm
        (((arts.map (·.sentiment)).insertionSort (fun x y : ℚ => x ≤ y)).take 3 ++
         ((arts.map (·.sentiment)).insertionSort (fun x y : ℚ => x ≤ y)).drop
           (((arts.map (·.sentiment)).insertionSort (fun x y : ℚ => x ≤ y)).length - 2)) := by
      rw [hrelmap, hmapcat]
      exact (List.perm_insertionSort _ _).trans
        ((List.reverse_perm _).append (List.reverse_perm _))
    have hsorted : List.Sorted (fun x y : ℚ => x ≤ y)
        ((relatedArticlesOf arts).map (·.sentiment)) := by
      have hs : List.Sorted (fun a b : ArticleWithSentiment => a.sentiment ≤ b.sentiment)
          (relatedArticlesOf arts) := by
        rw [hrel]
        exact List.sorted_insertionSort _ _
      exact List.Pairwise.map _ (fun _ _ hab => hab) hs
    exact List.eq_of_perm_of_sorted hp hsorted hTsorted
  refine ⟨?_, hfinal, ?_, ?_⟩
  · rw [hrel, htk1, htk2, List.length_insertionSort, List.length_append, hlen1, hlen2]
  · rw [hrel]
    exact List.sorted_insertionSort _ _
  · intro a ha
    rw [hrel, htk1, htk2] at ha
    have ha2 := (List.perm_insertionSort _ _).mem_iff.mp ha
    rcases List.mem_append.mp ha2 with h | h
    · unfold takeLast at h
      exact hdperm.mem_iff.mp (List.mem_of_mem_drop h)
    · exact hdperm.mem_iff.mp (List.mem_of_mem_take h)

/-- With 1 to 4 scored articles, the related-article selection returns
min(3,n) + min(2,n) entries, always repeats at least one article (the
most-negative and most-positive slices overlap and are not deduplicated), and
in particular returns the single article twice when n = 1. -/
theorem relatedArticlesOf_small (arts : List ArticleWithSentiment)
    (h1 : 1 ≤ arts.length) (h4 : arts.length ≤ 4) :
    (relatedArticlesOf arts).length = min 3 arts.length + min 2 arts.length ∧
    (∃ x, 2 ≤ (relatedArticlesOf arts).count x) ∧
    (∀ a ∈ relatedArticlesOf arts, a ∈ arts) ∧
    (∀ a, arts = [a] → relatedArticlesOf arts = [a, a]) := by
  have hrel : relatedArticlesOf arts =
      ((takeLast 3 (arts.insertionSort (fun a b => b.sentiment ≤ a.sentiment))).take 3 ++
        ((arts.insertionSort (fun a b => b.sentiment ≤ a.sentiment)).take 3).take 2).insertionSort
        (fun a b => a.sentiment ≤ b.sentiment) := rfl
  have hdlen : (arts.insertionSort (fun a b => b.sentiment ≤ a.sentiment)).length =
      arts.length := List.length_insertionSort _ _
  have hdperm : (arts.insertionSort (fun a b => b.sentiment ≤ a.sentiment)).Perm arts :=
    List.perm_insertionSort _ _
  have htk1 : (takeLast 3 (arts.insertionSort (fun a b => b.sentiment ≤ a.sentiment))).take 3 =
      takeLast 3 (arts.insertionSort (fun a b => b.sentiment ≤ a.sentiment)) := by
    apply List.take_of_length_le
    unfold takeLast
    rw [List.length_drop]
    omega
  have htk2 : ((arts.insertionSort (fun a b => b.sentiment ≤ a.sentiment)).take 3).take 2 =
      (arts.insertionSort (fun a b => b.sentiment ≤ a.sentiment)).take 2 := by
    rw [List.take_take]
    norm_num
  refine ⟨?_, ?_, ?_, ?_⟩
  · rw [hrel, htk1, htk2, List.length_insertionSort, List.length_append]
    unfold takeLast
    rw [List.length_drop, List.length_take, hdlen]
    omega
  · have hcount : ∃ x, 2 ≤
        ((takeLast 3 (arts.insertionSort (fun a b => b.sentiment ≤ a.sentiment)) ++
          (arts.insertionSort (fun a b => b.sentiment ≤ a.sentiment)).take 2)).count x := by
      have hd4 : (arts.insertionSort (fun a b => b.sentiment ≤ a.sentiment)).length ≤ 4 := by
        rw [hdlen]
        omega
      have hd1 : 1 ≤ (arts.insertionSort (fun a b => b.sentiment ≤ a.sentiment)).length := by
        rw [hdlen]
        omega
      generalize arts.insertionSort (fun a b => b.sentiment ≤ a.sentiment) = d at hd4 hd1
      rcases d with _ | ⟨a, _ | ⟨b, _ | ⟨c, _ | ⟨e, _ | ⟨f, tail⟩⟩⟩⟩⟩
      · rw [List.length_nil] at hd1
        omega
      · exact ⟨a, by simp [takeLast]⟩
      · exact ⟨a, by simp [takeLast]⟩
      · exact ⟨a, by simp [takeLast]⟩
      · exact ⟨b, by simp [takeLast]⟩
      · simp only [List.length_cons] at hd4
        omega
    obtain ⟨x, hx⟩ := hcount
    refine ⟨x, ?_⟩
    rw [hrel, htk1, htk2]
    rw [(List.perm_insertionSort
      (fun a b : ArticleWithSentiment => a.sentiment ≤ b.sentiment) _).count_eq]
    exact hx
  · intro a ha
    rw [hrel, htk1, htk2] at ha
    have ha2 := (List.perm_insertionSort _ _).mem_iff.mp ha
    rcases List.mem_append.mp ha2 with h | h
    · unfold takeLast at h
      exact hdperm.mem_iff.mp (List.mem_of_mem_drop h)
    · exact hdperm.mem_iff.mp (List.mem_of_mem_take h)
  · intro a ha
    subst ha
    simp [relatedArticlesOf, takeLast, List.insertionSort, List.orderedInsert, le_refl]

/-- C4: for a Q&A call with at least one DailyAggregate in range and at least
6 articles carrying a Mention, the returned related-article list has exactly
5 entries — the 3 lowest-scored and the 2 highest-scored articles (as score
multisets: its ascending score list is the 3 smallest followed by the 2
largest of the sorted input scores) — sorted ascending by score, and each
entry is one of the scored in-range articles. -/
theorem c4_related_articles (st : Store) (ticker question : String)
    (startDate endDate : Int) (ans : String)
    (hagg : get_daily_agg_range st.dailyAggs ticker startDate endDate ≠ [])
    (harts : 6 ≤ (articlesWithSentimentOf st ticker startDate endDate).length) :
    (answer_sentiment_question st ticker question startDate endDate
      (some ans)).1.relatedArticles.length = 5 ∧
    (answer_sentiment_question st ticker question startDate endDate
      (some ans)).1.relatedArticles.map (·.sentiment) =
      (((articlesWithSentimentOf st ticker startDate endDate).map
        (·.sentiment)).insertionSort (fun x y => x ≤ y)).take 3 ++
      (((articlesWithSentimentOf st ticker startDate endDate).map
        (·.sentiment)).insertionSort (fun x y => x ≤ y)).drop
        ((((articlesWithSentimentOf st ticker startDate endDate).map
          (·.sentiment)).insertionSort (fun x y => x ≤ y)).length - 2) ∧
    List.Sorted (fun a b : ArticleWithSentiment => a.sentiment ≤ b.sentiment)
      (answer_sentiment_question st ticker question startDate endDate
        (some ans)).1.relatedArticles ∧
    (∀ a ∈ (answer_sentiment_question st ticker question startDate endDate
        (some ans)).1.relatedArticles,
      a ∈ articlesWithSentimentOf st ticker startDate endDate) := by
  obtain ⟨d0, rest, hd⟩ : ∃ d0 rest,
      get_daily_agg_range st.dailyAggs ticker startDate endDate = d0 :: rest := by
    rcases hcase : get_daily_agg_range st.dailyAggs ticker startDate endDate with _ | ⟨d0, rest⟩
    · exact absurd hcase hagg
    · exact ⟨d0, rest, rfl⟩
  have hres : (answer_sentiment_question st ticker question startDate endDate
      (some ans)).1.relatedArticles =
      (relatedArticlesOf (articlesWithSentimentOf st ticker startDate endDate)).take 5 := by
    unfold answer_sentiment_question
    rw [hd]
  obtain ⟨hl, hm, hs, hmem⟩ := relatedArticlesOf_spec _ harts
  have htake : (relatedArticlesOf (articlesWithSentimentOf st ticker startDate endDate)).take 5 =
      relatedArticlesOf (articlesWithSentimentOf st ticker startDate endDate) :=
    List.take_of_length_le (by rw [hl])
  rw [hres, htake]
  exact ⟨hl, hm, hs, hmem⟩

/-- C10: for a Q&A call with a non-empty aggregate range and n scored
articles, 1 ≤ n ≤ 4, the returned related-article list has
min(3,n) + min(2,n) entries, contains at least one article more than once
(the slices overlap and are never deduplicated), draws all entries from the
scored articles, and with n = 1 returns the single article exactly twice. -/
theorem c10_related_articles_overlap (st : Store) (ticker question : String)
    (startDate endDate : Int) (ans : String) (n : Nat)
    (hagg : get_daily_agg_range st.dailyAggs ticker startDate endDate ≠ [])
    (h1 : 1 ≤ n) (h4 : n ≤ 4)
    (hn : (articlesWithSentimentOf st ticker startDate endDate).length = n) :
    (answer_sentiment_question st ticker question startDate endDate
      (some ans)).1.relatedArticles.length = min 3 n + min 2 n ∧
    (∃ x, 2 ≤ ((answer_sentiment_question st ticker question startDate endDate
      (some ans)).1.relatedArticles).count x) ∧
    (∀ a ∈ (answer_sentiment_question st ticker question startDate endDate
        (some ans)).1.relatedArticles,
      a ∈ articlesWithSentimentOf st ticker startDate endDate) ∧
    (∀ a, articlesWithSentimentOf st ticker startDate endDate = [a] →
      (answer_sentiment_question st ticker question startDate endDate
        (some ans)).1.relatedArticles = [a, a]) := by
  obtain ⟨d0, rest, hd⟩ : ∃ d0 rest,
      get_daily_agg_range st.dailyAggs ticker startDate endDate = d0 :: rest := by
    rcases hcase : get_daily_agg_range st.dailyAggs ticker startDate endDate with _ | ⟨d0, rest⟩
    · exact absurd hcase hagg
    · exact ⟨d0, rest, rfl⟩
  have hres : (answer_sentiment_question st ticker question startDate endDate
      (some ans)).1.relatedArticles =
      (relatedArticlesOf (articlesWithSentimentOf st ticker startDate endDate)).take 5 := by
    unfold answer_sentiment_question
    rw [hd]
  obtain ⟨hl, hc, hmem, hone⟩ := relatedArticlesOf_small
    (articlesWithSentimentOf st ticker startDate endDate) (by omega) (by omega)
  have htake : (relatedArticlesOf (articlesWithSentimentOf st ticker startDate endDate)).take 5 =
      relatedArticlesOf (articlesWithSentimentOf st ticker startDate endDate) :=
    List.take_of_length_le (by rw [hl, hn]; omega)
  rw [hres, htake]
  refine ⟨by rw [hl, hn], hc, hmem, ?_⟩
  intro a ha
  exact hone a ha

def qaStore : Store :=
  ⟨[⟨1, "s", "t1", "u1", 1, "c"⟩, ⟨2, "s", "t2", "u2", 2, "c"⟩, ⟨3, "s", "t3", "u3", 3, "c"⟩,
    ⟨4, "s", "t4", "u4", 4, "c"⟩, ⟨5, "s", "t5", "u5", 5, "c"⟩, ⟨6, "s", "t6", "u6", 6, "c"⟩],
   [⟨10, 1, "TSLA", mkRat 3 10, "positive", []⟩, ⟨11, 2, "TSLA", mkRat (-2) 10, "neutral", []⟩,
    ⟨12, 3, "TSLA", mkRat 5 10, "positive", []⟩, ⟨13, 4, "TSLA", mkRat (-7) 10, "negative", []⟩,
    ⟨14, 5, "TSLA", mkRat 1 10, "neutral", []⟩, ⟨15, 6, "TSLA", mkRat 9 10, "positive", []⟩],
   [⟨3, "TSLA", mkRat 1 10, 6, some "stable", [], "b"⟩], 16⟩

/-- C4 witness: 6 scored in-range articles and one aggregate row. -/
theorem c4_related_articles_witness :
    (answer_sentiment_question qaStore "TSLA" "Q" 0 10
      (some "A")).1.relatedArticles.length = 5 ∧
    (answer_sentiment_question qaStore "TSLA" "Q" 0 10
      (some "A")).1.relatedArticles.map (·.sentiment) =
      (((articlesWithSentimentOf qaStore "TSLA" 0 10).map
        (·.sentiment)).insertionSort (fun x y => x ≤ y)).take 3 ++
      (((articlesWithSentimentOf qaStore "TSLA" 0 10).map
        (·.sentiment)).insertionSort (fun x y => x ≤ y)).drop
        ((((articlesWithSentimentOf qaStore "TSLA" 0 10).map
          (·.sentiment)).insertionSort (fun x y => x ≤ y)).length - 2) ∧
    List.Sorted (fun a b : ArticleWithSentiment => a.sentiment ≤ b.sentiment)
      (answer_sentiment_question qaStore "TSLA" "Q" 0 10 (some "A")).1.relatedArticles ∧
    (∀ a ∈ (answer_sentiment_question qaStore "TSLA" "Q" 0 10 (some "A")).1.relatedArticles,
      a ∈ articlesWithSentimentOf qaStore "TSLA" 0 10) :=
  c4_related_articles qaStore "TSLA" "Q" 0 10 "A" (by decide) (by decide)

def qaStoreOne : Store :=
  ⟨[⟨1, "s", "t1", "u1", 1, "c"⟩],
   [⟨10, 1, "TSLA", mkRat 3 10, "positive", []⟩],
   [⟨1, "TSLA", mkRat 3 10, 1, some "stable", [], "b"⟩], 11⟩

/-- C10 witness: exactly one scored in-range article. -/
theorem c10_related_articles_overlap_witness :
    (answer_sentiment_question qaStoreOne "TSLA" "Q" 0 10
      (some "A")).1.relatedArticles.length = min 3 1 + min 2 1 ∧
    (∃ x, 2 ≤ ((answer_sentiment_question qaStoreOne "TSLA" "Q" 0 10
      (some "A")).1.relatedArticles).count x) ∧
    (∀ a ∈ (answer_sentiment_question qaStoreOne "TSLA" "Q" 0 10 (some "A")).1.relatedArticles,
      a ∈ articlesWithSentimentOf qaStoreOne "TSLA" 0 10) ∧
    (∀ a, articlesWithSentimentOf qaStoreOne "TSLA" 0 10 = [a] →
      (answer_sentiment_question qaStoreOne "TSLA" "Q" 0 10
        (some "A")).1.relatedArticles = [a, a]) :=
  c10_related_articles_overlap qaStoreOne "TSLA" "Q" 0 10 "A" 1
    (by decide) (by decide) (by decide) (by decide)

end SentimentTracker
